import Mathlib

set_option maxRecDepth 40000

/-
Shallow embedding of the tool-chatter pipeline (src/main.rs).

The program reads log lines, locates the first brace of an embedded JSON
payload, decodes it with the `json` crate, extracts timestamp, meeting id,
chat id, sender and message text, aggregates the messages into a
meeting/chat store with an adjacent-duplicate collapse after every insert,
and finally prints a report.

The external JSON parser (the `json` crate's `parse` function) is not part
of this repository; the pipeline functions below therefore take the parser
as an explicit argument of type `String → Except String Json`, and the
theorems quantify over it.  `HashMap` contents are modelled as association
lists in insertion order; the arbitrary iteration order of a Rust `HashMap`
is modelled by quantifying over permutations where iteration order matters
(only the final report loop and `Meeting`'s `Display` iterate a map).
-/

/-- Generic JSON value, as produced by the `json` crate used by `main.rs`.
Numbers are modelled as integers: `asI64` mirrors `JsonValue::as_i64`,
which yields a value exactly on (integral, in-range) numbers. -/
inductive Json where
  | null : Json
  | bool : Bool → Json
  | num : Int → Json
  | str : String → Json
  | arr : List Json → Json
  | obj : List (String × Json) → Json

/-- Indexing `value[key]`: member lookup on objects, `Null` on any other
variant or a missing key (mirrors the `json` crate's `Index<&str>`). -/
def Json.get : Json → String → Json
  | Json.obj fields, k =>
      match fields.find? (fun p => p.fst == k) with
      | some p => p.snd
      | none => Json.null
  | _, _ => Json.null

/-- `JsonValue::as_i64`: a value exactly on numbers. -/
def Json.asI64 : Json → Option Int
  | Json.num n => some n
  | _ => none

/-- JSON serialisation (`JsonValue::dump`).  String escaping inside dumped
strings is not modelled; no claim exercises it. -/
def Json.dump : Json → String
  | Json.null => "null"
  | Json.bool b => cond b "true" "false"
  | Json.num n => toString n
  | Json.str s => "\x22" ++ s ++ "\x22"
  | Json.arr xs => "[" ++ String.intercalate "," (xs.attach.map (fun x => Json.dump x.val)) ++ "]"
  | Json.obj fs => "\x7b" ++ String.intercalate "," (fs.attach.map (fun p => "\x22" ++ p.val.fst ++ "\x22:" ++ Json.dump p.val.snd)) ++ "\x7d"
decreasing_by
  · have h := List.sizeOf_lt_of_mem x.property
    simp only [Json.arr.sizeOf_spec]
    omega
  · rcases p with ⟨⟨a, b⟩, hmem⟩
    have h := List.sizeOf_lt_of_mem hmem
    simp only [Prod.mk.sizeOf_spec] at h
    simp only [Json.obj.sizeOf_spec]
    omega

/-- The `json` crate's `Display` (what `.to_string()` produces): strings
print raw (unquoted), numbers and booleans print their literal form,
`Null` prints `null`, containers fall back to `dump`. -/
def Json.display : Json → String
  | Json.str s => s
  | Json.num n => toString n
  | Json.bool b => cond b "true" "false"
  | Json.null => "null"
  | Json.arr xs => Json.dump (Json.arr xs)
  | Json.obj fs => Json.dump (Json.obj fs)

/-- One chat message (struct `Message` in main.rs).  `NaiveDateTime` is
modelled by the milliseconds-since-epoch integer it was built from. -/
structure Message where
  author : String
  message : String
  time : Int
deriving DecidableEq

/-- A chat room (struct `Chat` in main.rs). -/
structure Chat where
  chat_id : String
  messages : List Message
deriving DecidableEq

/-- A meeting (struct `Meeting` in main.rs); its `chats : HashMap` is
modelled as an association list in insertion order. -/
structure Meeting where
  meeting_id : String
  time : Int
  chats : List (String × Chat)
deriving DecidableEq

/-- The top-level `meetings : HashMap<String, Meeting>` store. -/
abbrev Meetings := List (String × Meeting)

/-- `HashMap::contains_key`. -/
def hasKey {α : Type} (l : List (String × α)) (k : String) : Bool :=
  l.any (fun p => p.fst == k)

/-- `HashMap::get` on the association-list model. -/
def findVal {α : Type} (l : List (String × α)) (k : String) : Option α :=
  (l.find? (fun p => p.fst == k)).map (fun p => p.snd)

/-- `HashMap::insert` of a key known to be absent. -/
def insertNew {α : Type} (l : List (String × α)) (k : String) (v : α) : List (String × α) :=
  l ++ [(k, v)]

/-- In-place update through `HashMap::get_mut`. -/
def modifyVal {α : Type} (l : List (String × α)) (k : String) (f : α → α) : List (String × α) :=
  l.map (fun p => if p.fst == k then (p.fst, f p.snd) else p)

/-- Tail worker of `Vec::dedup_by(|s, o| s.message == o.message)`:
`prev` is the last retained element; a later element equal in body to
`prev` is dropped, otherwise it is retained and becomes the new `prev`. -/
def dedupTail (prev : Message) : List Message → List Message
  | [] => []
  | x :: xs => if x.message == prev.message then dedupTail prev xs else x :: dedupTail x xs

/-- `chat.messages.dedup_by(|s, o| s.message == o.message)` (main.rs:146):
collapses runs of equal-body messages, keeping the first of each run. -/
def dedupMessages : List Message → List Message
  | [] => []
  | m :: ms => m :: dedupTail m ms

/-- `line.find("{")` followed by `&line[start_pos..]`: the suffix of the
line starting at its first brace, if any. -/
def findBrace (line : String) : Option String :=
  match line.toList.dropWhile (fun c => c ≠ '\x7b') with
  | [] => none
  | cs => some (String.mk cs)

/-- Extraction `data["envelope"]["timestamp"].as_i64()` (main.rs:98). -/
def extractTs (data : Json) : Option Int :=
  ((data.get "envelope").get "timestamp").asI64

/-- Extraction `data["envelope"]["routing"]["meetingId"].to_string()` (main.rs:105). -/
def extractMeetingId (data : Json) : String :=
  (((data.get "envelope").get "routing").get "meetingId").display

/-- Extraction `data["core"]["body"]["chatId"].to_string()` (main.rs:123). -/
def extractChatId (data : Json) : String :=
  (((data.get "core").get "body").get "chatId").display

/-- Extraction `body["msg"]["sender"]["name"].to_string()` (main.rs:136). -/
def extractSender (data : Json) : String :=
  (((((data.get "core").get "body").get "msg").get "sender").get "name").display

/-- Extraction `body["msg"]["message"].to_string()` (main.rs:137). -/
def extractBody (data : Json) : String :=
  ((((data.get "core").get "body").get "msg").get "message").display

/-- The `Message` pushed at main.rs:140-144. -/
def mkMessage (data : Json) (time : Int) : Message :=
  { author := extractSender data, message := extractBody data, time := time }

/-- Chat lookup/creation plus push and dedup (main.rs:122-146) inside one
meeting. -/
def Meeting.addChatMsg (m : Meeting) (chat_id : String) (msg : Message) : Meeting :=
  let chats :=
    if hasKey m.chats chat_id then m.chats
    else insertNew m.chats chat_id { chat_id := chat_id, messages := [] }
  { m with
    chats := modifyVal chats chat_id
      (fun c => { c with messages := dedupMessages (c.messages ++ [msg]) }) }

/-- The store update a successfully decoded event performs
(main.rs:104-146): meeting lookup/creation, then `Meeting.addChatMsg`. -/
def applyEvent (st : Meetings) (data : Json) (time : Int) : Meetings :=
  let meeting_id := extractMeetingId data
  let st1 :=
    if hasKey st meeting_id then st
    else insertNew st meeting_id { meeting_id := meeting_id, time := time, chats := [] }
  modifyVal st1 meeting_id
    (fun m => m.addChatMsg (extractChatId data) (mkMessage data time))

/-- Processing of one successfully parsed payload (main.rs:96-147).  The
`Err` case models the panic of the `expect` on a missing or non-numeric
timestamp; the returned list collects the lines the iteration prints
(the `inserting:` log). -/
def processDecoded (st : Meetings) (data : Json) : Except String (Meetings × List String) :=
  match extractTs data with
  | none =>
      Except.error (((data.get "envelope").get "timestamp").display ++ " is not a number")
  | some time =>
      Except.ok (applyEvent st data time,
        if hasKey st (extractMeetingId data) then []
        else ["inserting: " ++ extractMeetingId data])

/-- Processing of one input line (main.rs:93-155), parameterised by the
external JSON parser.  Each element of the returned list is the argument
of one `println!`. -/
def processLine (parse : String → Except String Json) (st : Meetings) (line : String) :
    Except String (Meetings × List String) :=
  match findBrace line with
  | some payload =>
      match parse payload with
      | Except.ok data => processDecoded st data
      | Except.error e => Except.ok (st, [e ++ "\n" ++ payload])
  | none => Except.ok (st, [line])

/-- The main loop over all input lines, threading the store and
concatenating printed output in order. -/
def processLines (parse : String → Except String Json) (st : Meetings) :
    List String → Except String (Meetings × List String)
  | [] => Except.ok (st, [])
  | l :: ls =>
      match processLine parse st l with
      | Except.error e => Except.error e
      | Except.ok (st', out) =>
          match processLines parse st' ls with
          | Except.error e => Except.error e
          | Except.ok (st'', out') => Except.ok (st'', out ++ out')

/-- Two-digit zero padding. -/
def pad2 (n : Nat) : String :=
  if n < 10 then "0" ++ toString n else toString n

/-- Four-digit zero padding (chrono `%Y`). -/
def pad4 (n : Nat) : String :=
  if n < 10 then "000" ++ toString n
  else if n < 100 then "00" ++ toString n
  else if n < 1000 then "0" ++ toString n
  else toString n

/-- Proleptic-Gregorian year formatting. -/
def fmtYear (y : Int) : String :=
  if y < 0 then "-" ++ pad4 y.natAbs else pad4 y.toNat

/-- Civil date (year, month, day) from days since 1970-01-01
(the standard `civil_from_days` algorithm, as used by chrono's calendar
conversion). -/
def civilFromDays (z0 : Int) : Int × Nat × Nat :=
  let z := z0 + 719468
  let era := Int.fdiv z 146097
  let doe := (z - era * 146097).toNat
  let yoe := (doe - doe / 1460 + doe / 36524 - doe / 146096) / 365
  let y : Int := (yoe : Int) + era * 400
  let doy := doe - (365 * yoe + yoe / 4 - yoe / 100)
  let mp := (5 * doy + 2) / 153
  let d := doy - (153 * mp + 2) / 5 + 1
  let m := if mp < 10 then mp + 3 else mp - 9
  (if m ≤ 2 then y + 1 else y, m, d)

/-- chrono format `%H:%M` of `NaiveDateTime::from_timestamp(0,0) +
Duration::milliseconds(ms)`. -/
def fmtHM (millis : Int) : String :=
  let secs := Int.ediv millis 1000
  let sod := (Int.emod secs 86400).toNat
  pad2 (sod / 3600) ++ ":" ++ pad2 (sod % 3600 / 60)

/-- chrono format `%d.%m.%Y %H:%M` of the same instant. -/
def fmtDate (millis : Int) : String :=
  let secs := Int.ediv millis 1000
  let days := Int.ediv secs 86400
  let c := civilFromDays days
  pad2 c.2.2 ++ "." ++ pad2 c.2.1 ++ "." ++ fmtYear c.1 ++ " " ++ fmtHM millis

/-- The `{:.>15}` format directive: the author right-aligned in a
minimum-width-15 field filled with dots on the left. -/
def padAuthor (a : String) : String :=
  if a.length < 15 then String.mk (List.replicate (15 - a.length) '.') ++ a else a

/-- Concatenation of the strings a sequence of `write!` calls emits. -/
def concatStr : List String → String
  | [] => ""
  | s :: ss => s ++ concatStr ss

/-- `Display for Message` (main.rs:68-78). -/
def Message.fmt (m : Message) : String :=
  "    " ++ fmtHM m.time ++ ":" ++ padAuthor m.author ++ ": " ++ m.message

/-- An 80-character separator line (`"#".repeat(80)` / `"_".repeat(80)`). -/
def ruleOf (c : Char) : String :=
  String.mk (List.replicate 80 c)

/-- `Display for Chat` (main.rs:51-59). -/
def Chat.fmt (c : Chat) : String :=
  "\n" ++ ruleOf '_' ++ "\n" ++ c.chat_id ++ "\n"
    ++ concatStr (c.messages.map (fun m => "  " ++ m.fmt ++ "\n"))

/-- `Display for Meeting` (main.rs:29-43), with the arbitrary `HashMap`
iteration order over its chats supplied explicitly. -/
def Meeting.fmtWith (m : Meeting) (cs : List Chat) : String :=
  "\n" ++ ruleOf '#' ++ "\n\n" ++ fmtDate m.time ++ " - " ++ m.meeting_id ++ "\n"
    ++ concatStr (cs.map Chat.fmt)

/-- What `println!("\n\n{}", meeting)` contributes for one meeting
(main.rs:160-162). -/
def renderBlock (it : Meeting × List Chat) : String :=
  "\n\n" ++ Meeting.fmtWith it.fst it.snd ++ "\n"

/-- The final report (main.rs:159-162): the session-count line, then one
block per meeting, in the supplied iteration order. -/
def reportOutput (items : List (Meeting × List Chat)) : String :=
  toString items.length ++ "\n" ++ concatStr (items.map renderBlock)

/-- Concatenation of `println!` outputs: each element followed by a
newline. -/
def printlnAll (outs : List String) : String :=
  concatStr (outs.map (fun o => o ++ "\n"))

/-- The whole standard output of a run: the streamed per-line output
followed by the final report, or the panic message.  `items` supplies the
iteration order the final `HashMap` loops happen to use; `ValidOrder`
states which orders are possible. -/
def pipelineOutput (parse : String → Except String Json) (lines : List String)
    (items : List (Meeting × List Chat)) : Except String String :=
  match processLines parse [] lines with
  | Except.error e => Except.error e
  | Except.ok (_, outs) => Except.ok (printlnAll outs ++ reportOutput items)

/-- `items` is a possible iteration order of the store `st`: its meetings
are a permutation of the stored meetings, and each meeting carries a
permutation of its stored chats. -/
def ValidOrder (st : Meetings) (items : List (Meeting × List Chat)) : Prop :=
  (items.map Prod.fst).Perm (st.map Prod.snd) ∧
    ∀ p ∈ items, (p.snd : List Chat).Perm (p.fst.chats.map Prod.snd)

/-- The messages of chat `C` inside meeting `m` (empty when absent). -/
def convMessagesM (m : Meeting) (C : String) : List Message :=
  match findVal m.chats C with
  | none => []
  | some c => c.messages

/-- The messages stored under session key `S` and conversation key `C`
(empty when either is absent). -/
def convMessages (st : Meetings) (S C : String) : List Message :=
  match findVal st S with
  | none => []
  | some m => convMessagesM m C

/-- No two adjacent messages of the list share a body. -/
def collapsedB : List Message → Bool
  | [] => true
  | [_] => true
  | a :: b :: rest => (a.message != b.message) && collapsedB (b :: rest)

/-- Every conversation of every meeting in the store is collapsed. -/
def storeCollapsed (st : Meetings) : Bool :=
  st.all (fun p => p.snd.chats.all (fun q => collapsedB q.snd.messages))

/-- The duplicate collapse as the specification words it: walking the
sequence, a message is removed exactly when its body equals the body of
the message immediately preceding it in the original sequence (`prev`
advances even over removed messages); the first of each run is kept. -/
def specCollapseTail (prev : Message) : List Message → List Message
  | [] => []
  | x :: xs => if x.message = prev.message then specCollapseTail x xs else x :: specCollapseTail x xs

/-- Entry point of the specification-worded collapse. -/
def specCollapse : List Message → List Message
  | [] => []
  | m :: ms => m :: specCollapseTail m ms

/-- The claim's reading of the author field: "right-padded, dot-filled"
places the fill dots after the author. -/
def padAuthorRight (a : String) : String :=
  if a.length < 15 then a ++ String.mk (List.replicate (15 - a.length) '.') else a

/-- The message-line shape as the claim words it: time, right-padded
dot-filled author field, then ": " and the body. -/
def claimMsgLine (m : Message) : String :=
  fmtHM m.time ++ padAuthorRight m.author ++ ": " ++ m.message

/-- Each line of `L` followed by a newline. -/
def unlines (L : List String) : String :=
  concatStr (L.map (fun l => l ++ "\n"))

/-- The message line per the amended claim: six spaces of indentation, the
`HH:MM` time, a colon, the author right-aligned in a minimum-width-15
dot-filled field, then ": " and the body. -/
def specMsgLine (m : Message) : String :=
  "      " ++ fmtHM m.time ++ ":" ++ padAuthor m.author ++ ": " ++ m.message

/-- The lines of one conversation block per the amended claim: a blank
line, a full-width rule, the conversation id, then one line per message. -/
def specChatLines (c : Chat) : List String :=
  "" :: ruleOf '_' :: c.chat_id :: c.messages.map specMsgLine

/-- The lines of one session block per the amended claim: three blank
lines, a full-width separator, a blank line, the `DD.MM.YYYY HH:MM -
sessionId` header, the conversation blocks, and a final blank line. -/
def specMeetingLines (it : Meeting × List Chat) : List String :=
  "" :: "" :: "" :: ruleOf '#' :: "" :: (fmtDate it.fst.time ++ " - " ++ it.fst.meeting_id)
    :: ((it.snd.map specChatLines).flatten ++ [""])

/-- The whole report per the amended claim: the session-count line, then
the session blocks. -/
def specReport (items : List (Meeting × List Chat)) : String :=
  unlines (toString items.length :: (items.map specMeetingLines).flatten)

/-- Concrete demonstration timestamp: 2023-11-14 22:13:20 UTC. -/
def demoTs : Int := 1700000000000

/-- Demonstration event: meeting m1, chat c1, Alice says hi. -/
def demoJson1 : Json :=
  Json.obj [("envelope", Json.obj [("timestamp", Json.num demoTs),
              ("routing", Json.obj [("meetingId", Json.str "m1")])]),
            ("core", Json.obj [("body", Json.obj [("chatId", Json.str "c1"),
              ("msg", Json.obj [("sender", Json.obj [("name", Json.str "Alice")]),
                ("message", Json.str "hi")])])])]

/-- Demonstration event: meeting m1, chat c1, Bob says yo (the unrelated,
different-body message). -/
def demoJson2 : Json :=
  Json.obj [("envelope", Json.obj [("timestamp", Json.num (demoTs + 60000)),
              ("routing", Json.obj [("meetingId", Json.str "m1")])]),
            ("core", Json.obj [("body", Json.obj [("chatId", Json.str "c1"),
              ("msg", Json.obj [("sender", Json.obj [("name", Json.str "Bob")]),
                ("message", Json.str "yo")])])])]

/-- Demonstration event: meeting m2, chat c2, Carol says hey. -/
def demoJson3 : Json :=
  Json.obj [("envelope", Json.obj [("timestamp", Json.num (demoTs + 120000)),
              ("routing", Json.obj [("meetingId", Json.str "m2")])]),
            ("core", Json.obj [("body", Json.obj [("chatId", Json.str "c2"),
              ("msg", Json.obj [("sender", Json.obj [("name", Json.str "Carol")]),
                ("message", Json.str "hey")])])])]

/-- Demonstration event whose payload decodes but has no timestamp. -/
def demoJsonNoTs : Json :=
  Json.obj [("envelope", Json.obj [("routing", Json.obj [("meetingId", Json.str "m1")])])]

/-- Demonstration event with a timestamp but every optional field absent. -/
def demoJsonBare : Json :=
  Json.obj [("envelope", Json.obj [("timestamp", Json.num 5000)])]

/-- Demonstration parser standing in for `json::parse`: five known
payloads decode, everything else is a syntax error. -/
def demoParse : String → Except String Json := fun s =>
  if s = "\x7bA" then Except.ok demoJson1
  else if s = "\x7bB" then Except.ok demoJson2
  else if s = "\x7bC" then Except.ok demoJson3
  else if s = "\x7bD" then Except.ok demoJsonNoTs
  else if s = "\x7bF" then Except.ok demoJsonBare
  else Except.error "Unexpected character"

/-- Demonstration log lines (prefix text, then the payload). -/
def demoLine1 : String := "log \x7bA"

/-- Second demonstration line (different-body event, same conversation). -/
def demoLine2 : String := "log \x7bB"

/-- Third demonstration line (event in a second meeting). -/
def demoLine3 : String := "log \x7bC"

/-- Line whose payload decodes but lacks a timestamp. -/
def demoLineNoTs : String := "log \x7bD"

/-- Line whose payload fails to decode. -/
def demoLineBadSyntax : String := "log \x7bE"

/-- Line without any brace. -/
def demoLinePlain : String := "plain log line"

/-- Line whose payload decodes to the bare event. -/
def demoLineBare : String := "log \x7bF"

/-- The message demoJson1 produces. -/
def demoMsgHi : Message := { author := "Alice", message := "hi", time := demoTs }

/-- The message demoJson2 produces. -/
def demoMsgYo : Message := { author := "Bob", message := "yo", time := demoTs + 60000 }

/-- The message demoJson3 produces. -/
def demoMsgHey : Message := { author := "Carol", message := "hey", time := demoTs + 120000 }

/-- Store after feeding demoLine1 twice: one meeting, one chat, one
message. -/
def demoStOne : Meetings :=
  [("m1", { meeting_id := "m1", time := demoTs,
            chats := [("c1", { chat_id := "c1", messages := [demoMsgHi] })] })]

/-- Store after feeding demoLine1, demoLine2, demoLine1: the duplicate
separated by an unrelated message survives. -/
def demoStTwo : Meetings :=
  [("m1", { meeting_id := "m1", time := demoTs,
            chats := [("c1", { chat_id := "c1",
                               messages := [demoMsgHi, demoMsgYo, demoMsgHi] })] })]

/-- First demonstration meeting, as stored after demoLine1 and demoLine3. -/
def demoMeeting1 : Meeting :=
  { meeting_id := "m1", time := demoTs,
    chats := [("c1", { chat_id := "c1", messages := [demoMsgHi] })] }

/-- Second demonstration meeting, as stored after demoLine1 and demoLine3. -/
def demoMeeting2 : Meeting :=
  { meeting_id := "m2", time := demoTs + 120000,
    chats := [("c2", { chat_id := "c2", messages := [demoMsgHey] })] }

/-- Two-meeting store produced by demoLine1 then demoLine3. -/
def demoStAB : Meetings :=
  [("m1", demoMeeting1), ("m2", demoMeeting2)]

/-- One possible iteration order of demoStAB. -/
def demoItemsA : List (Meeting × List Chat) :=
  [(demoMeeting1, [{ chat_id := "c1", messages := [demoMsgHi] }]),
   (demoMeeting2, [{ chat_id := "c2", messages := [demoMsgHey] }])]

/-- The opposite iteration order of demoStAB. -/
def demoItemsB : List (Meeting × List Chat) :=
  [(demoMeeting2, [{ chat_id := "c2", messages := [demoMsgHey] }]),
   (demoMeeting1, [{ chat_id := "c1", messages := [demoMsgHi] }])]

/-- Boolean suffix test on strings, via their character lists. -/
def suffixOfStr (pat s : String) : Bool :=
  pat.toList.isSuffixOf s.toList

deriving instance DecidableEq for Except

instance (st : Meetings) (items : List (Meeting × List Chat)) : Decidable (ValidOrder st items) := by
  unfold ValidOrder
  infer_instance

theorem findVal_nil {α : Type} (k : String) : findVal ([] : List (String × α)) k = none := rfl

theorem findVal_cons {α : Type} (p : String × α) (l : List (String × α)) (k : String) :
    findVal (p :: l) k = if p.fst == k then some p.snd else findVal l k := by
  cases h : (p.fst == k) with
  | true => simp [findVal, List.find?_cons, h]
  | false => simp [findVal, List.find?_cons, h]

theorem hasKey_cons {α : Type} (p : String × α) (l : List (String × α)) (k : String) :
    hasKey (p :: l) k = ((p.fst == k) || hasKey l k) := by
  simp [hasKey]

theorem insertNew_cons {α : Type} (p : String × α) (l : List (String × α)) (k : String) (v : α) :
    insertNew (p :: l) k v = p :: insertNew l k v := rfl

theorem modifyVal_cons {α : Type} (p : String × α) (l : List (String × α)) (k : String)
    (f : α → α) :
    modifyVal (p :: l) k f = (if p.fst == k then (p.fst, f p.snd) else p) :: modifyVal l k f := rfl

theorem hasKey_eq_isSome {α : Type} (l : List (String × α)) (k : String) :
    hasKey l k = (findVal l k).isSome := by
  induction l with
  | nil => rfl
  | cons p l ih =>
    rw [hasKey_cons, findVal_cons, ih]
    cases h : (p.fst == k) <;> simp

theorem findVal_insertNew_self {α : Type} (l : List (String × α)) (k : String) (v : α)
    (h : hasKey l k = false) : findVal (insertNew l k v) k = some v := by
  induction l with
  | nil => simp [findVal, insertNew]
  | cons p l ih =>
    rw [hasKey_cons, Bool.or_eq_false_iff] at h
    rw [insertNew_cons, findVal_cons, h.1]
    simpa using ih h.2

theorem findVal_insertNew_other {α : Type} (l : List (String × α)) (k : String) (v : α)
    (k' : String) (h : k' ≠ k) : findVal (insertNew l k v) k' = findVal l k' := by
  induction l with
  | nil =>
    show findVal [(k, v)] k' = findVal [] k'
    simp [findVal_cons, findVal_nil, Ne.symm h]
  | cons p l ih =>
    rw [insertNew_cons, findVal_cons, findVal_cons, ih]

theorem findVal_modifyVal_self {α : Type} (l : List (String × α)) (k : String) (f : α → α) :
    findVal (modifyVal l k f) k = (findVal l k).map f := by
  induction l with
  | nil => rfl
  | cons p l ih =>
    rw [modifyVal_cons]
    by_cases h : p.fst = k
    · simp [findVal_cons, h]
    · simp [findVal_cons, h, ih]

theorem findVal_modifyVal_other {α : Type} (l : List (String × α)) (k : String) (f : α → α)
    (k' : String) (h : k' ≠ k) : findVal (modifyVal l k f) k' = findVal l k' := by
  induction l with
  | nil => rfl
  | cons p l ih =>
    rw [modifyVal_cons]
    by_cases hp : p.fst = k
    · have hne : p.fst ≠ k' := by rw [hp]; exact Ne.symm h
      simp [findVal_cons, hp, hne, ih, Ne.symm h]
    · by_cases hp' : p.fst = k'
      · simp [findVal_cons, hp, hp', h]
      · simp [findVal_cons, hp, hp', ih]

theorem keys_modifyVal {α : Type} (l : List (String × α)) (k : String) (f : α → α) :
    (modifyVal l k f).map Prod.fst = l.map Prod.fst := by
  induction l with
  | nil => rfl
  | cons p l ih =>
    rw [modifyVal_cons]
    by_cases h : p.fst = k
    · simp [h, ih]
    · simp [h, ih]

theorem convMessagesM_addChatMsg_self (m : Meeting) (cid : String) (msg : Message) :
    convMessagesM (m.addChatMsg cid msg) cid
      = dedupMessages (convMessagesM m cid ++ [msg]) := by
  unfold Meeting.addChatMsg convMessagesM
  cases h : hasKey m.chats cid with
  | true =>
    simp only [h, if_true]
    rw [findVal_modifyVal_self]
    have h' := hasKey_eq_isSome m.chats cid
    rw [h] at h'
    cases hc : findVal m.chats cid with
    | none => rw [hc] at h'; simp at h'
    | some c => simp [hc]
  | false =>
    simp only [h, Bool.false_eq_true, if_false]
    rw [findVal_modifyVal_self, findVal_insertNew_self _ _ _ h]
    have h' := hasKey_eq_isSome m.chats cid
    rw [h] at h'
    cases hc : findVal m.chats cid with
    | none => simp [hc]
    | some c => rw [hc] at h'; simp at h'

theorem convMessagesM_addChatMsg_other (m : Meeting) (cid : String) (msg : Message)
    (C : String) (h : C ≠ cid) :
    convMessagesM (m.addChatMsg cid msg) C = convMessagesM m C := by
  unfold Meeting.addChatMsg convMessagesM
  cases hk : hasKey m.chats cid with
  | true =>
    simp only [hk, if_true]
    rw [findVal_modifyVal_other _ _ _ _ h]
  | false =>
    simp only [hk, Bool.false_eq_true, if_false]
    rw [findVal_modifyVal_other _ _ _ _ h, findVal_insertNew_other _ _ _ _ h]

theorem convMessages_applyEvent_self (st : Meetings) (data : Json) (t : Int) :
    convMessages (applyEvent st data t) (extractMeetingId data) (extractChatId data)
      = dedupMessages (convMessages st (extractMeetingId data) (extractChatId data)
          ++ [mkMessage data t]) := by
  unfold applyEvent convMessages
  cases h : hasKey st (extractMeetingId data) with
  | true =>
    simp only [h, if_true]
    rw [findVal_modifyVal_self]
    have h' := hasKey_eq_isSome st (extractMeetingId data)
    rw [h] at h'
    cases hm : findVal st (extractMeetingId data) with
    | none => rw [hm] at h'; simp at h'
    | some m => simp [hm, convMessagesM_addChatMsg_self]
  | false =>
    simp only [h, Bool.false_eq_true, if_false]
    rw [findVal_modifyVal_self, findVal_insertNew_self _ _ _ h]
    have h' := hasKey_eq_isSome st (extractMeetingId data)
    rw [h] at h'
    cases hm : findVal st (extractMeetingId data) with
    | none =>
      simp only [hm, Option.map_some']
      rw [convMessagesM_addChatMsg_self]
      simp [convMessagesM, findVal_nil]
    | some m => rw [hm] at h'; simp at h'

theorem convMessages_applyEvent_other (st : Meetings) (data : Json) (t : Int) (S C : String)
    (h : ¬(S = extractMeetingId data ∧ C = extractChatId data)) :
    convMessages (applyEvent st data t) S C = convMessages st S C := by
  unfold applyEvent convMessages
  by_cases hS : S = extractMeetingId data
  · have hC : C ≠ extractChatId data := fun hc => h ⟨hS, hc⟩
    subst hS
    cases hk : hasKey st (extractMeetingId data) with
    | true =>
      simp only [hk, if_true]
      rw [findVal_modifyVal_self]
      cases hm : findVal st (extractMeetingId data) with
      | none => simp
      | some m => simp [convMessagesM_addChatMsg_other _ _ _ _ hC]
    | false =>
      simp only [hk, Bool.false_eq_true, if_false]
      rw [findVal_modifyVal_self, findVal_insertNew_self _ _ _ hk]
      cases hm : findVal st (extractMeetingId data) with
      | none =>
        simp only [hm, Option.map_some']
        rw [convMessagesM_addChatMsg_other _ _ _ _ hC]
        simp [convMessagesM, findVal_nil]
      | some m =>
        have h' := hasKey_eq_isSome st (extractMeetingId data)
        rw [hk, hm] at h'
        simp at h'
  · cases hk : hasKey st (extractMeetingId data) with
    | true =>
      simp only [hk, if_true]
      rw [findVal_modifyVal_other _ _ _ _ hS]
    | false =>
      simp only [hk, Bool.false_eq_true, if_false]
      rw [findVal_modifyVal_other _ _ _ _ hS, findVal_insertNew_other _ _ _ _ hS]

theorem collapsedB_cons_dedupTail (l : List Message) :
    ∀ prev, collapsedB (prev :: dedupTail prev l) = true := by
  induction l with
  | nil => intro prev; rfl
  | cons x xs ih =>
    intro prev
    unfold dedupTail
    cases h : (x.message == prev.message) with
    | true => simp only [if_true]; exact ih prev
    | false =>
      simp only [Bool.false_eq_true, if_false]
      have hx : x.message ≠ prev.message := by simpa using h
      have hne : (prev.message != x.message) = true := bne_iff_ne.mpr (Ne.symm hx)
      simp only [collapsedB, hne, Bool.true_and]
      exact ih x

theorem collapsedB_dedupMessages (l : List Message) :
    collapsedB (dedupMessages l) = true := by
  cases l with
  | nil => rfl
  | cons m ms => exact collapsedB_cons_dedupTail ms m

theorem dedupTail_eq_specCollapseTail (l : List Message) :
    ∀ prev prev', prev.message = prev'.message →
      dedupTail prev l = specCollapseTail prev' l := by
  induction l with
  | nil => intro _ _ _; rfl
  | cons x xs ih =>
    intro prev prev' h
    unfold dedupTail specCollapseTail
    cases hx : (x.message == prev.message) with
    | true =>
      have hxp : x.message = prev.message := by simpa using hx
      simp only [hx, if_true]
      rw [if_pos (hxp.trans h)]
      exact ih prev x hxp.symm
    | false =>
      have hxp : ¬ x.message = prev.message := by simpa using hx
      simp only [hx, Bool.false_eq_true, if_false]
      rw [if_neg (h ▸ hxp)]
      rw [ih x x rfl]

theorem dedupMessages_eq_specCollapse (l : List Message) :
    dedupMessages l = specCollapse l := by
  cases l with
  | nil => rfl
  | cons m ms =>
    simp only [dedupMessages, specCollapse]
    rw [dedupTail_eq_specCollapseTail ms m m rfl]

theorem processLines_append (parse : String → Except String Json) (xs ys : List String) :
    ∀ st, processLines parse st (xs ++ ys) =
      match processLines parse st xs with
      | Except.error e => Except.error e
      | Except.ok (st1, o1) =>
          match processLines parse st1 ys with
          | Except.error e => Except.error e
          | Except.ok (st2, o2) => Except.ok (st2, o1 ++ o2) := by
  induction xs with
  | nil =>
    intro st
    show processLines parse st ys =
      match processLines parse st ys with
      | Except.error e => Except.error e
      | Except.ok (st2, o2) => Except.ok (st2, [] ++ o2)
    cases h : processLines parse st ys with
    | error e => rfl
    | ok r => cases r with | mk st2 o2 => simp
  | cons l ls ih =>
    intro st
    show (match processLine parse st l with
          | Except.error e => Except.error e
          | Except.ok (st', out) =>
              match processLines parse st' (ls ++ ys) with
              | Except.error e => Except.error e
              | Except.ok (st'', out') => Except.ok (st'', out ++ out')) =
         (match (match processLine parse st l with
                 | Except.error e => Except.error e
                 | Except.ok (st', out) =>
                     match processLines parse st' ls with
                     | Except.error e => Except.error e
                     | Except.ok (st'', out') => Except.ok (st'', out ++ out')) with
          | Except.error e => Except.error e
          | Except.ok (st1, o1) =>
              match processLines parse st1 ys with
              | Except.error e => Except.error e
              | Except.ok (st2, o2) => Except.ok (st2, o1 ++ o2))
    cases hl : processLine parse st l with
    | error e => rfl
    | ok r =>
      obtain ⟨st', out⟩ := r
      show (match processLines parse st' (ls ++ ys) with
            | Except.error e => Except.error e
            | Except.ok (st'', out') => Except.ok (st'', out ++ out')) =
           (match (match processLines parse st' ls with
                   | Except.error e => Except.error e
                   | Except.ok (st'', out') => Except.ok (st'', out ++ out')) with
            | Except.error e => Except.error e
            | Except.ok (st1, o1) =>
                match processLines parse st1 ys with
                | Except.error e => Except.error e
                | Except.ok (st2, o2) => Except.ok (st2, o1 ++ o2))
      rw [ih st']
      cases h1 : processLines parse st' ls with
      | error e => rfl
      | ok r1 =>
        obtain ⟨st1, o1⟩ := r1
        show (match (match processLines parse st1 ys with
                     | Except.error e => Except.error e
                     | Except.ok (st2, o2) => Except.ok (st2, o1 ++ o2)) with
              | Except.error e => Except.error e
              | Except.ok (st'', out') => Except.ok (st'', out ++ out')) =
             (match processLines parse st1 ys with
              | Except.error e => Except.error e
              | Except.ok (st2, o2) => Except.ok (st2, out ++ o1 ++ o2))
        cases h2 : processLines parse st1 ys with
        | error e => rfl
        | ok r2 =>
          obtain ⟨st2, o2⟩ := r2
          simp [List.append_assoc]

theorem storeCollapsed_eq_true_iff (st : Meetings) :
    storeCollapsed st = true ↔
      ∀ p ∈ st, ∀ q ∈ p.snd.chats, collapsedB q.snd.messages = true := by
  simp [storeCollapsed, List.all_eq_true]

theorem chatsCollapsed_addChatMsg (m : Meeting) (cid : String) (msg : Message)
    (h : ∀ q ∈ m.chats, collapsedB q.snd.messages = true) :
    ∀ q ∈ (m.addChatMsg cid msg).chats, collapsedB q.snd.messages = true := by
  intro q hq
  have hq' : q ∈ modifyVal
      (if hasKey m.chats cid then m.chats
       else insertNew m.chats cid { chat_id := cid, messages := [] }) cid
      (fun c => { c with messages := dedupMessages (c.messages ++ [msg]) }) := hq
  rcases List.mem_map.mp hq' with ⟨p, hp, rfl⟩
  have hporig : p ∈ m.chats ∨ p = (cid, { chat_id := cid, messages := [] }) := by
    cases hk : hasKey m.chats cid with
    | true => rw [hk] at hp; simp at hp; exact Or.inl hp
    | false =>
      rw [hk] at hp
      simp only [Bool.false_eq_true, if_false, insertNew, List.mem_append,
        List.mem_singleton] at hp
      exact hp
  by_cases hpc : p.fst = cid
  · simp [hpc, collapsedB_dedupMessages]
  · simp only [beq_iff_eq, hpc, if_false]
    rcases hporig with hmem | hnew
    · exact h p hmem
    · exact absurd (by rw [hnew]) hpc

theorem storeCollapsed_applyEvent (st : Meetings) (data : Json) (t : Int)
    (h : storeCollapsed st = true) : storeCollapsed (applyEvent st data t) = true := by
  rw [storeCollapsed_eq_true_iff] at h ⊢
  intro p hp
  have hp' : p ∈ modifyVal
      (if hasKey st (extractMeetingId data) then st
       else insertNew st (extractMeetingId data)
         { meeting_id := extractMeetingId data, time := t, chats := [] })
      (extractMeetingId data)
      (fun m => m.addChatMsg (extractChatId data) (mkMessage data t)) := hp
  rcases List.mem_map.mp hp' with ⟨r, hr, rfl⟩
  have hrorig : r ∈ st ∨ r = (extractMeetingId data,
      { meeting_id := extractMeetingId data, time := t, chats := [] }) := by
    cases hk : hasKey st (extractMeetingId data) with
    | true => rw [hk] at hr; simp at hr; exact Or.inl hr
    | false =>
      rw [hk] at hr
      simp only [Bool.false_eq_true, if_false, insertNew, List.mem_append,
        List.mem_singleton] at hr
      exact hr
  have hrchats : ∀ q ∈ r.snd.chats, collapsedB q.snd.messages = true := by
    rcases hrorig with hmem | hnew
    · exact h r hmem
    · intro q hq
      rw [hnew] at hq
      simp at hq
  by_cases hrk : r.fst = extractMeetingId data
  · simp only [beq_iff_eq, hrk, if_true]
    exact chatsCollapsed_addChatMsg r.snd (extractChatId data) (mkMessage data t) hrchats
  · simp only [beq_iff_eq, hrk, if_false]
    exact hrchats

theorem storeCollapsed_processLine (parse : String → Except String Json) (st : Meetings)
    (line : String) (st' : Meetings) (out : List String)
    (hrun : processLine parse st line = Except.ok (st', out))
    (h : storeCollapsed st = true) : storeCollapsed st' = true := by
  unfold processLine at hrun
  cases hb : findBrace line with
  | none =>
    simp only [hb, Except.ok.injEq, Prod.mk.injEq] at hrun
    exact hrun.1 ▸ h
  | some payload =>
    simp only [hb] at hrun
    cases hp : parse payload with
    | error e =>
      simp only [hp, Except.ok.injEq, Prod.mk.injEq] at hrun
      exact hrun.1 ▸ h
    | ok data =>
      simp only [hp] at hrun
      unfold processDecoded at hrun
      cases ht : extractTs data with
      | none =>
        rw [ht] at hrun
        exact Except.noConfusion hrun
      | some t =>
        simp only [ht, Except.ok.injEq, Prod.mk.injEq] at hrun
        exact hrun.1 ▸ storeCollapsed_applyEvent st data t h

theorem storeCollapsed_processLines (parse : String → Except String Json)
    (lines : List String) :
    ∀ st st' outs, processLines parse st lines = Except.ok (st', outs) →
      storeCollapsed st = true → storeCollapsed st' = true := by
  induction lines with
  | nil =>
    intro st st' outs hrun h
    simp only [processLines, Except.ok.injEq, Prod.mk.injEq] at hrun
    exact hrun.1 ▸ h
  | cons l ls ih =>
    intro st st' outs hrun h
    unfold processLines at hrun
    cases h1 : processLine parse st l with
    | error e =>
      simp only [h1] at hrun
      exact Except.noConfusion hrun
    | ok r =>
      simp only [h1] at hrun
      obtain ⟨st1, o1⟩ := r
      cases h2 : processLines parse st1 ls with
      | error e =>
        simp only [h2] at hrun
        exact Except.noConfusion hrun
      | ok r2 =>
        simp only [h2] at hrun
        obtain ⟨st2, o2⟩ := r2
        simp only [Except.ok.injEq, Prod.mk.injEq] at hrun
        exact hrun.1 ▸ ih st1 st2 o2 h2 (storeCollapsed_processLine parse st l st1 o1 h1 h)

theorem processLine_decoded (parse : String → Except String Json) (st : Meetings)
    (line payload : String) (data : Json) (t : Int)
    (hb : findBrace line = some payload) (hp : parse payload = Except.ok data)
    (ht : extractTs data = some t) :
    processLine parse st line = Except.ok (applyEvent st data t,
      if hasKey st (extractMeetingId data) then []
      else ["inserting: " ++ extractMeetingId data]) := by
  unfold processLine
  simp only [hb, hp]
  unfold processDecoded
  simp only [ht]

theorem concatStr_append (a b : List String) :
    concatStr (a ++ b) = concatStr a ++ concatStr b := by
  induction a with
  | nil => simp [concatStr]
  | cons s ss ih => simp [concatStr, ih, String.append_assoc]

theorem printlnAll_append (a b : List String) :
    printlnAll (a ++ b) = printlnAll a ++ printlnAll b := by
  simp [printlnAll, List.map_append, concatStr_append]

theorem unlines_append (a b : List String) :
    unlines (a ++ b) = unlines a ++ unlines b := by
  simp [unlines, List.map_append, concatStr_append]

theorem unlines_cons (x : String) (L : List String) :
    unlines (x :: L) = x ++ "\n" ++ unlines L := rfl

theorem unlines_nil : unlines [] = "" := rfl

theorem hasKey_eq_keys {α : Type} (l : List (String × α)) (k : String) :
    hasKey l k = (l.map Prod.fst).any (fun s => s == k) := by
  induction l with
  | nil => rfl
  | cons p l ih => simp [hasKey] at ih ⊢; rw [ih]

theorem indent_msgFmt (m : Message) : "  " ++ Message.fmt m = specMsgLine m := by
  unfold Message.fmt specMsgLine
  rw [show ("      " : String) = "  " ++ "    " from rfl]
  simp only [String.append_assoc]

theorem chatFmt_eq_unlines (c : Chat) : Chat.fmt c = unlines (specChatLines c) := by
  have hmsgs : ∀ ms : List Message,
      concatStr (ms.map (fun m => "  " ++ Message.fmt m ++ "\n"))
        = unlines (ms.map specMsgLine) := by
    intro ms
    induction ms with
    | nil => rfl
    | cons m ms ih =>
      simp only [List.map_cons, concatStr, unlines] at ih ⊢
      rw [ih, indent_msgFmt]
  unfold Chat.fmt specChatLines
  rw [unlines_cons, unlines_cons, unlines_cons, hmsgs]
  simp [String.append_assoc, String.empty_append]

theorem renderBlock_eq_unlines (it : Meeting × List Chat) :
    renderBlock it = unlines (specMeetingLines it) := by
  obtain ⟨m, cs⟩ := it
  have hcs : concatStr (cs.map Chat.fmt) = unlines ((cs.map specChatLines).flatten) := by
    induction cs with
    | nil => rfl
    | cons c cs ih =>
      simp only [List.map_cons, concatStr, List.flatten_cons]
      rw [unlines_append, ih, chatFmt_eq_unlines]
  unfold renderBlock Meeting.fmtWith specMeetingLines
  rw [unlines_cons, unlines_cons, unlines_cons, unlines_cons, unlines_cons, unlines_cons,
    unlines_append, hcs]
  simp [String.append_assoc, String.empty_append, String.append_empty, unlines_cons,
    unlines_nil]
  rw [show ("\n\n" : String) = "\n" ++ "\n" from rfl]
  simp only [String.append_assoc]

theorem reportOutput_eq_specReport (items : List (Meeting × List Chat)) :
    reportOutput items = specReport items := by
  have hblocks : concatStr (items.map renderBlock)
      = unlines ((items.map specMeetingLines).flatten) := by
    induction items with
    | nil => rfl
    | cons it its ih =>
      simp only [List.map_cons, concatStr, List.flatten_cons]
      rw [unlines_append, ih, renderBlock_eq_unlines]
  unfold reportOutput specReport
  rw [unlines_cons, hblocks]

/-- C1: appending a message and then running the duplicate collapse
removes exactly the messages whose body equals the immediately preceding
message's body, keeping the first of each run (the code's `dedup_by` pass
equals the specification-worded collapse on every message list); feeding
the same well-formed event twice in immediate succession yields exactly
one message in the conversation, while feeding it twice with one
unrelated different-body message in between yields two messages with that
body. -/
theorem claim_C1 :
    (∀ l : List Message, dedupMessages l = specCollapse l) ∧
    processLines demoParse [] [demoLine1, demoLine1]
      = Except.ok (demoStOne, ["inserting: m1"]) ∧
    processLines demoParse [] [demoLine1, demoLine2, demoLine1]
      = Except.ok (demoStTwo, ["inserting: m1"]) :=
  ⟨dedupMessages_eq_specCollapse, by decide, by decide⟩

/-- C2 (amended): processing is a function of the input lines alone, and
rendering is deterministic once the hash-map iteration orders are fixed:
two runs whose iteration orders agree produce byte-identical output, and
two runs whose session order differs (same per-meeting chat orders)
produce the same count line and the same session blocks up to order —
but the code iterates its `HashMap`s in arbitrary order rather than a
stable one, so byte-identical output across runs is not guaranteed. -/
theorem claim_C2 (st : Meetings) (items items' : List (Meeting × List Chat))
    (hA : ValidOrder st items) (hB : ValidOrder st items')
    (hsame : items.Perm items') :
    toString items.length = toString items'.length ∧
    (items.map renderBlock).Perm (items'.map renderBlock) ∧
    (items.map Prod.fst).Perm (items'.map Prod.fst) :=
  ⟨by rw [hsame.length_eq], hsame.map renderBlock, hA.1.trans hB.1.symm⟩

/-- C2 witness: the amended statement at the concrete two-meeting store. -/
theorem claim_C2_witness :
    toString demoItemsA.length = toString demoItemsB.length ∧
    (demoItemsA.map renderBlock).Perm (demoItemsB.map renderBlock) ∧
    (demoItemsA.map Prod.fst).Perm (demoItemsB.map Prod.fst) :=
  claim_C2 demoStAB demoItemsA demoItemsB (by decide) (by decide) (by decide)

/-- C2 counterexample: one concrete input produces a two-meeting store
with two possible `HashMap` iteration orders, and the two orders render
different bytes — so a second run that happens to iterate in the other
order does not produce byte-identical output, refuting the claim as
stated. -/
theorem claim_C2_counterexample :
    processLines demoParse [] [demoLine1, demoLine3]
      = Except.ok (demoStAB, ["inserting: m1", "inserting: m2"]) ∧
    ValidOrder demoStAB demoItemsA ∧ ValidOrder demoStAB demoItemsB ∧
    pipelineOutput demoParse [demoLine1, demoLine3] demoItemsA
      ≠ pipelineOutput demoParse [demoLine1, demoLine3] demoItemsB :=
  ⟨by decide, by decide, by decide, by decide⟩

/-- C3: a line whose payload decodes but whose timestamp field is absent
or non-numeric terminates the whole run with the panic message, and no
report is produced for that run. -/
theorem claim_C3 (parse : String → Except String Json) (pre post : List String)
    (line payload : String) (data : Json) (st1 : Meetings) (o1 : List String)
    (items : List (Meeting × List Chat))
    (hpre : processLines parse [] pre = Except.ok (st1, o1))
    (hb : findBrace line = some payload) (hp : parse payload = Except.ok data)
    (ht : extractTs data = none) :
    processLines parse [] (pre ++ line :: post)
      = Except.error (((data.get "envelope").get "timestamp").display ++ " is not a number") ∧
    pipelineOutput parse (pre ++ line :: post) items
      = Except.error (((data.get "envelope").get "timestamp").display ++ " is not a number") := by
  have hline : processLine parse st1 line
      = Except.error (((data.get "envelope").get "timestamp").display ++ " is not a number") := by
    unfold processLine
    simp only [hb, hp]
    unfold processDecoded
    simp only [ht]
  have hmid : processLines parse st1 (line :: post)
      = Except.error (((data.get "envelope").get "timestamp").display ++ " is not a number") := by
    unfold processLines
    simp only [hline]
  have hrun : processLines parse [] (pre ++ line :: post)
      = Except.error (((data.get "envelope").get "timestamp").display ++ " is not a number") := by
    rw [processLines_append parse pre (line :: post)]
    simp only [hpre, hmid]
  exact ⟨hrun, by unfold pipelineOutput; simp only [hrun]⟩

/-- C3 witness: the concrete run aborts with `null is not a number`. -/
theorem claim_C3_witness :
    processLines demoParse [] ([demoLine1] ++ demoLineNoTs :: [demoLine3])
      = Except.error (((demoJsonNoTs.get "envelope").get "timestamp").display
          ++ " is not a number") ∧
    pipelineOutput demoParse ([demoLine1] ++ demoLineNoTs :: [demoLine3]) demoItemsA
      = Except.error (((demoJsonNoTs.get "envelope").get "timestamp").display
          ++ " is not a number") :=
  claim_C3 demoParse [demoLine1] [demoLine3] demoLineNoTs "\x7bD" demoJsonNoTs
    demoStOne ["inserting: m1"] demoItemsA (by decide) (by decide) (by rfl) (by rfl)

/-- C4: a successfully decoded event stores its message under exactly the
session key equal to its extracted meetingId and the conversation key
equal to its extracted chatId (that conversation's messages become the
pushed-then-collapsed sequence), and every other session/conversation
pair is left untouched. -/
theorem claim_C4 (parse : String → Except String Json) (st : Meetings)
    (line payload : String) (data : Json) (t : Int) (S C : String)
    (hb : findBrace line = some payload) (hp : parse payload = Except.ok data)
    (ht : extractTs data = some t) :
    processLine parse st line = Except.ok (applyEvent st data t,
      if hasKey st (extractMeetingId data) then []
      else ["inserting: " ++ extractMeetingId data]) ∧
    convMessages (applyEvent st data t) (extractMeetingId data) (extractChatId data)
      = dedupMessages (convMessages st (extractMeetingId data) (extractChatId data)
          ++ [mkMessage data t]) ∧
    (¬(S = extractMeetingId data ∧ C = extractChatId data) →
      convMessages (applyEvent st data t) S C = convMessages st S C) :=
  ⟨processLine_decoded parse st line payload data t hb hp ht,
   convMessages_applyEvent_self st data t,
   fun h => convMessages_applyEvent_other st data t S C h⟩

/-- C4 witness: the m2/c2 event lands in conversation (m2, c2) and leaves
conversation (m1, c1) unchanged. -/
theorem claim_C4_witness :
    convMessages (applyEvent demoStOne demoJson3 (demoTs + 120000)) "m2" "c2"
      = dedupMessages (convMessages demoStOne "m2" "c2"
          ++ [mkMessage demoJson3 (demoTs + 120000)]) ∧
    convMessages (applyEvent demoStOne demoJson3 (demoTs + 120000)) "m1" "c1"
      = convMessages demoStOne "m1" "c1" := by
  have h := claim_C4 demoParse demoStOne demoLine3 "\x7bC" demoJson3 (demoTs + 120000)
    "m1" "c1" (by decide) (by rfl) (by rfl)
  have e1 : extractMeetingId demoJson3 = "m2" := by decide
  have e2 : extractChatId demoJson3 = "c2" := by decide
  refine ⟨?_, h.2.2 (by decide)⟩
  rw [← e1, ← e2]
  exact h.2.1

/-- C5: a line containing a brace whose payload fails to decode does not
crash the run (processing yields `ok`), adds no message and creates no
session or conversation (the store is returned unchanged), and the
printed output is the decode error message followed by the raw payload
text. -/
theorem claim_C5 (parse : String → Except String Json) (st : Meetings)
    (line payload e : String)
    (hb : findBrace line = some payload) (hp : parse payload = Except.error e) :
    processLine parse st line = Except.ok (st, [e ++ "\n" ++ payload]) := by
  unfold processLine
  simp only [hb, hp]

/-- C5 witness: the malformed-payload line at a concrete store. -/
theorem claim_C5_witness :
    processLine demoParse demoStOne demoLineBadSyntax
      = Except.ok (demoStOne, ["Unexpected character" ++ "\n" ++ "\x7bE"]) :=
  claim_C5 demoParse demoStOne demoLineBadSyntax "\x7bE" "Unexpected character"
    (by decide) (by rfl)

/-- C6: a line containing no brace is echoed verbatim as its own printed
line, changes nothing in the store, and in a full run its echo sits in
its streamed position, after the output of the preceding lines and
before the output of the following lines and the final report. -/
theorem claim_C6 (parse : String → Except String Json) (line : String)
    (hb : findBrace line = none) :
    (∀ st, processLine parse st line = Except.ok (st, [line])) ∧
    (∀ pre post st1 o1 st2 o2 items,
      processLines parse [] pre = Except.ok (st1, o1) →
      processLines parse st1 post = Except.ok (st2, o2) →
      pipelineOutput parse (pre ++ line :: post) items =
        Except.ok (printlnAll o1 ++ ((line ++ "\n")
          ++ (printlnAll o2 ++ reportOutput items)))) := by
  have hline : ∀ st, processLine parse st line = Except.ok (st, [line]) := by
    intro st
    unfold processLine
    simp only [hb]
  refine ⟨hline, ?_⟩
  intro pre post st1 o1 st2 o2 items h1 h2
  have hmid : processLines parse st1 (line :: post) = Except.ok (st2, [line] ++ o2) := by
    unfold processLines
    simp only [hline st1, h2]
  have hrun : processLines parse [] (pre ++ line :: post)
      = Except.ok (st2, o1 ++ ([line] ++ o2)) := by
    rw [processLines_append parse pre (line :: post)]
    simp only [h1, hmid]
  unfold pipelineOutput
  simp only [hrun]
  rw [printlnAll_append, printlnAll_append]
  have hone : printlnAll [line] = line ++ "\n" := by
    simp [printlnAll, concatStr, String.append_empty]
  rw [hone]
  simp [String.append_assoc]

/-- C6 witness: the plain line echoes between the two inserting logs and
before the report. -/
theorem claim_C6_witness :
    processLine demoParse demoStOne demoLinePlain = Except.ok (demoStOne, [demoLinePlain]) ∧
    pipelineOutput demoParse ([demoLine1] ++ demoLinePlain :: [demoLine3]) demoItemsA =
      Except.ok (printlnAll ["inserting: m1"] ++ ((demoLinePlain ++ "\n")
        ++ (printlnAll ["inserting: m2"] ++ reportOutput demoItemsA))) :=
  ⟨(claim_C6 demoParse demoLinePlain (by decide)).1 demoStOne,
   (claim_C6 demoParse demoLinePlain (by decide)).2 [demoLine1] [demoLine3] demoStOne
     ["inserting: m1"] demoStAB ["inserting: m2"] demoItemsA (by decide) (by decide)⟩

/-- C7: for a successfully decoded event with a numeric timestamp,
extraction never fails — processing yields `ok` — and each absent
optional field (sender name, message body, meeting id, chat id) is
coerced to the placeholder string `null` while the message is still
constructed and stored in its conversation. -/
theorem claim_C7 (parse : String → Except String Json) (st : Meetings)
    (line payload : String) (data : Json) (t : Int)
    (hb : findBrace line = some payload) (hp : parse payload = Except.ok data)
    (ht : extractTs data = some t) :
    (∃ st' out, processLine parse st line = Except.ok (st', out)) ∧
    ((((((data.get "core").get "body").get "msg").get "sender").get "name") = Json.null →
      (mkMessage data t).author = "null") ∧
    (((((data.get "core").get "body").get "msg").get "message") = Json.null →
      (mkMessage data t).message = "null") ∧
    ((((data.get "envelope").get "routing").get "meetingId") = Json.null →
      extractMeetingId data = "null") ∧
    ((((data.get "core").get "body").get "chatId") = Json.null →
      extractChatId data = "null") ∧
    convMessages (applyEvent st data t) (extractMeetingId data) (extractChatId data)
      = dedupMessages (convMessages st (extractMeetingId data) (extractChatId data)
          ++ [mkMessage data t]) := by
  refine ⟨⟨_, _, processLine_decoded parse st line payload data t hb hp ht⟩, ?_, ?_, ?_, ?_,
    convMessages_applyEvent_self st data t⟩
  · intro h; simp [mkMessage, extractSender, h, Json.display]
  · intro h; simp [mkMessage, extractBody, h, Json.display]
  · intro h; simp [extractMeetingId, h, Json.display]
  · intro h; simp [extractChatId, h, Json.display]

/-- C7 witness: the bare event (timestamp only) still produces a stored
message, with every optional field coerced to `null`. -/
theorem claim_C7_witness :
    (∃ st' out, processLine demoParse demoStOne demoLineBare = Except.ok (st', out)) ∧
    ((((((demoJsonBare.get "core").get "body").get "msg").get "sender").get "name")
        = Json.null → (mkMessage demoJsonBare 5000).author = "null") ∧
    (((((demoJsonBare.get "core").get "body").get "msg").get "message") = Json.null →
      (mkMessage demoJsonBare 5000).message = "null") ∧
    ((((demoJsonBare.get "envelope").get "routing").get "meetingId") = Json.null →
      extractMeetingId demoJsonBare = "null") ∧
    ((((demoJsonBare.get "core").get "body").get "chatId") = Json.null →
      extractChatId demoJsonBare = "null") ∧
    convMessages (applyEvent demoStOne demoJsonBare 5000) (extractMeetingId demoJsonBare)
        (extractChatId demoJsonBare)
      = dedupMessages (convMessages demoStOne (extractMeetingId demoJsonBare)
          (extractChatId demoJsonBare) ++ [mkMessage demoJsonBare 5000]) :=
  claim_C7 demoParse demoStOne demoLineBare "\x7bF" demoJsonBare 5000
    (by decide) (by rfl) (by rfl)

/-- C8 (amended): the rendered report is, line for line, the
session-count line followed by the session blocks; each session block is
three blank lines, a full-width `#` separator, a blank line, the
`DD.MM.YYYY HH:MM - sessionId` header, its conversation blocks, and a
trailing blank line; each conversation block is a blank line, a
full-width `_` rule, the conversation id, then one line per message
consisting of six spaces of indentation, the `HH:MM` time, a colon, the
author right-aligned in a minimum-width-15 field filled with dots on the
left, then `: ` and the message body. -/
theorem claim_C8 (items : List (Meeting × List Chat)) :
    reportOutput items = specReport items :=
  reportOutput_eq_specReport items

/-- C8 counterexample: the claim reads the author field as right-padded
(dots appended after the author), but a concrete rendered message line
places the fill dots before the author, so the claimed line shape does
not occur in the output. -/
theorem claim_C8_counterexample :
    Message.fmt demoMsgHi = "    22:13:..........Alice: hi" ∧
    suffixOfStr (claimMsgLine demoMsgHi) (Message.fmt demoMsgHi) = false :=
  ⟨by decide, by decide⟩

/-- C9: processing any list of input lines from a store in which every
conversation is adjacent-duplicate-free (in particular the empty store,
and hence the store after every processed prefix of a run) yields a
store in which every conversation is still adjacent-duplicate-free: the
per-insert collapse re-scans the whole sequence, so the fully collapsed
state is re-established after each line. -/
theorem claim_C9 (parse : String → Except String Json) (lines : List String)
    (st0 st : Meetings) (outs : List String)
    (h0 : storeCollapsed st0 = true)
    (hrun : processLines parse st0 lines = Except.ok (st, outs)) :
    storeCollapsed st = true :=
  storeCollapsed_processLines parse lines st0 st outs hrun h0

/-- C9 witness: the three-line demo run keeps its conversation collapsed. -/
theorem claim_C9_witness : storeCollapsed demoStTwo = true :=
  claim_C9 demoParse [demoLine1, demoLine2, demoLine1] [] demoStTwo ["inserting: m1"]
    (by decide) (by decide)

/-- C10: when the meetingId path is absent from a decoded payload, the
coerced identifier is the fixed non-empty placeholder string `null`
(likewise for an absent chatId path), the same for every such event, so
two events lacking a meetingId end up in one shared session rather than
separate or empty-keyed ones. -/
theorem claim_C10 (data1 data2 : Json) (t1 t2 : Int)
    (h1 : (((data1.get "envelope").get "routing").get "meetingId") = Json.null)
    (h2 : (((data2.get "envelope").get "routing").get "meetingId") = Json.null) :
    extractMeetingId data1 = "null" ∧
    extractMeetingId data1 = extractMeetingId data2 ∧
    ((((data1.get "core").get "body").get "chatId") = Json.null →
      extractChatId data1 = "null") ∧
    (applyEvent (applyEvent [] data1 t1) data2 t2).map Prod.fst = ["null"] := by
  have e1 : extractMeetingId data1 = "null" := by simp [extractMeetingId, h1, Json.display]
  have e2 : extractMeetingId data2 = "null" := by simp [extractMeetingId, h2, Json.display]
  have k1 : (applyEvent [] data1 t1).map Prod.fst = ["null"] := by
    unfold applyEvent
    rw [e1, keys_modifyVal]
    simp [hasKey, insertNew]
  have hk2 : hasKey (applyEvent [] data1 t1) "null" = true := by
    rw [hasKey_eq_keys, k1]
    rfl
  refine ⟨e1, by rw [e1, e2], fun h => by simp [extractChatId, h, Json.display], ?_⟩
  have hsteps : ∀ st' : Meetings, hasKey st' "null" = true →
      (applyEvent st' data2 t2).map Prod.fst = st'.map Prod.fst := by
    intro st' hk
    unfold applyEvent
    rw [e2, keys_modifyVal, hk]
    simp
  rw [hsteps (applyEvent [] data1 t1) hk2, k1]

/-- C10 witness: two copies of the bare event share the single session
keyed `null`. -/
theorem claim_C10_witness :
    extractMeetingId demoJsonBare = "null" ∧
    extractMeetingId demoJsonBare = extractMeetingId demoJsonBare ∧
    ((((demoJsonBare.get "core").get "body").get "chatId") = Json.null →
      extractChatId demoJsonBare = "null") ∧
    (applyEvent (applyEvent [] demoJsonBare 5000) demoJsonBare 6000).map Prod.fst
      = ["null"] :=
  claim_C10 demoJsonBare demoJsonBare 5000 6000 (by rfl) (by rfl)
